import Mathlib

/-!
# Verification of the unifi_timelapse capture/protect/select/encode/cleanup core

A shallow embedding, in Lean 4, of the core logic of the `unifi_timelapse`
repository, together with theorems settling the frozen claims C1-C10 about it.

Conventions of the embedding:

* Python `datetime` values are modelled by the `DateTime` structure below
  (calendar fields as naturals); `datetime.time`-of-day values by a natural
  (seconds since midnight surrogate; only their total order matters).
* Database rows (`Image`, `Camera`, `MultidayConfig`, `Timelapse`) are Lean
  structures carrying exactly the columns the embedded operations read or
  write; UUIDs, file paths and message strings are represented by naturals.
* The selector arithmetic in `select_images_for_multiday`
  (`src/worker/tasks/multiday.py`) and `select_images_for_config`
  (`src/api/services/multiday_timelapse.py`) is Python *float* arithmetic:
  `step = len(images) / count` is an IEEE-754 binary64 division and
  `int(i * step)` multiplies in binary64 before truncating.  This is modelled
  exactly: `fl` below is correctly-rounded (round-half-to-even) conversion of
  a nonnegative rational to the binary64 grid of 53-bit significands.
  Overflow and subnormals are not modelled: all values arising here are
  normal-range (CPython list lengths are below `2 ^ 63`, far below the
  binary64 overflow threshold `2 ^ 1024`).
* Effectful code is modelled by explicit state passing; the filesystem and
  the ffmpeg subprocess are oracles passed in as parameters.
-/

namespace UnifiTimelapse

/-! ## Exact model of Python binary64 arithmetic

CPython's `int / int`, `int * float` and `float * float` are correctly
rounded to binary64 (round to nearest, ties to even).  `rnd` rounds a
rational to an integer with ties to even; `fl q` rounds a nonnegative
rational `q` onto the binary64 grid: the grid spacing around `q` is
`2 ^ (Int.log 2 q - 52)`.
-/

/-- Round a rational to the nearest integer, ties to even. -/
def rnd (x : ℚ) : ℤ :=
  let n := ⌊x⌋
  if x - n < 1/2 then n
  else if 1/2 < x - n then n + 1
  else if n % 2 = 0 then n else n + 1

/-- Exponent of the binary64 unit in the last place at magnitude `q`. -/
def flExp (q : ℚ) : ℤ := Int.log 2 q - 52

/-- Correctly rounded conversion of a nonnegative rational to binary64
(round to nearest, ties to even); exact model of the value CPython stores
for the float results appearing in the frame selector. -/
def fl (q : ℚ) : ℚ :=
  if q = 0 then 0 else (rnd (q / 2 ^ flExp q) : ℚ) * 2 ^ flExp q

/-! ## Data model

Mirrors of the SQLAlchemy models in `src/api/models/` restricted to the
columns the embedded operations touch.  UUID columns, file-path columns and
free-text columns are represented by natural-number surrogates.
-/

/-- Calendar timestamp, mirroring the fields of a Python naive `datetime`. -/
structure DateTime where
  year : ℕ
  month : ℕ
  day : ℕ
  hour : ℕ
  minute : ℕ
  second : ℕ
deriving DecidableEq

/-- The ranges Python's `datetime` enforces on its fields (plus `1000 ≤ year`,
which makes the platform `strftime("%Y")` render exactly four digits, so that
the string sort of `"%Y%m%d%H"` keys agrees with the numeric sort used in the
embedding). -/
def DateTime.InRange (t : DateTime) : Prop :=
  1000 ≤ t.year ∧ t.year ≤ 9999 ∧ 1 ≤ t.month ∧ t.month ≤ 12 ∧
    1 ≤ t.day ∧ t.day ≤ 31 ∧ t.hour ≤ 23 ∧ t.minute ≤ 59 ∧ t.second ≤ 59

instance (t : DateTime) : Decidable t.InRange := by
  unfold DateTime.InRange
  infer_instance

/-- Numeric reading of the timestamp as `YYYYMMDDHHMMSS`; for in-range
timestamps, comparing serials is exactly Python's `datetime` comparison. -/
def DateTime.serial (t : DateTime) : ℕ :=
  ((((t.year * 100 + t.month) * 100 + t.day) * 100 + t.hour) * 100 + t.minute) * 100
    + t.second

/-- Numeric reading of `captured_at.strftime("%Y%m%d%H")`, the hour-bucket key
of the frame selectors.  The Python code sorts these keys as strings; for
in-range years the rendering is fixed-width, so string order coincides with
this numeric order. -/
def DateTime.hourKey (t : DateTime) : ℕ :=
  ((t.year * 100 + t.month) * 100 + t.day) * 100 + t.hour

/-- Values of `images.protection_reason` (`src/api/models/image.py`); the source
stores them as strings `"manual"`, `"multiday_timelapse"`, `"prospective"`. -/
inductive ProtectionReason
  | manual
  | multidayTimelapse
  | prospective
deriving DecidableEq

/-- Mirror of the `Image` model (`src/api/models/image.py`), restricted to
the columns read or written by capture, selection, protection and cleanup. -/
structure Image where
  id : ℕ
  camera_id : ℕ
  captured_at : DateTime
  file_size : ℕ
  is_protected : Bool
  protection_reason : Option ProtectionReason
  protected_by_config_id : Option ℕ
  included_in_timelapse_id : Option ℕ
deriving DecidableEq

instance : Inhabited Image :=
  ⟨⟨0, 0, ⟨2000, 1, 1, 0, 0, 0⟩, 0, false, none, none, none⟩⟩

/-- Values of `cameras.last_capture_status` (`"success"` / `"failed"`). -/
inductive CaptureStatus
  | success
  | failed
deriving DecidableEq

/-- Mirror of the `Camera` model (`src/api/models/camera.py`), restricted to
the columns the capture service reads or writes.  `blackout_start` /
`blackout_end` are `datetime.time` values, modelled by their total order on a
day (naturals). -/
structure Camera where
  id : ℕ
  capture_interval : ℕ
  is_active : Bool
  blackout_start : Option ℕ
  blackout_end : Option ℕ
  last_capture_at : Option DateTime
  last_capture_status : Option CaptureStatus
  consecutive_errors : ℕ
deriving DecidableEq

/-- Model of `Camera.is_in_blackout` (`src/api/models/camera.py`, lines 163-175):
returns `False` unless both bounds are set (Python 3 `time` objects are
always truthy, so the guard is exactly a `None` check); if `start > end` the
window wraps midnight and the check is `t ≥ start or t ≤ end`, otherwise
`start ≤ t ≤ end`. -/
def Camera.is_in_blackout (cam : Camera) (check_time : ℕ) : Bool :=
  match cam.blackout_start, cam.blackout_end with
  | some s, some e =>
    if e < s then decide (s ≤ check_time) || decide (check_time ≤ e)
    else decide (s ≤ check_time) && decide (check_time ≤ e)
  | _, _ => false

/-! ## Capture service (`src/api/services/capture.py`)

`CaptureService.capture_single` (lines 55-163): if the camera is in its
blackout period it returns a failure result *without touching the camera row*
(the early return at lines 73-79 precedes every state write).  Otherwise the
snapshot fetch either succeeds (lines 124-126: `last_capture_at := timestamp`,
`last_capture_status := "success"`, `consecutive_errors := 0`) or fails
(lines 153-155: `last_capture_at := timestamp`,
`last_capture_status := "failed"`, `consecutive_errors += 1`).
-/

/-- Outcome of an attempted snapshot fetch (timeout, HTTP error and decode
error all take the same failure path in the source). -/
inductive FetchOutcome
  | success
  | failure
deriving DecidableEq

/-- State update of the camera row for an attempted (non-blackout) fetch:
the two commit paths of `capture_single`. -/
def capture_attempt (cam : Camera) (timestamp : DateTime) (o : FetchOutcome) : Camera :=
  match o with
  | .success =>
    { cam with
      last_capture_at := some timestamp
      last_capture_status := some .success
      consecutive_errors := 0 }
  | .failure =>
    { cam with
      last_capture_at := some timestamp
      last_capture_status := some .failed
      consecutive_errors := cam.consecutive_errors + 1 }

/-- Model of `capture_single`, with the time of day and the fetch outcome passed in as
oracles: in blackout the camera row is returned unchanged. -/
def capture_single (cam : Camera) (now_tod : ℕ) (timestamp : DateTime)
    (o : FetchOutcome) : Camera :=
  if cam.is_in_blackout now_tod then cam else capture_attempt cam timestamp o

/-- One scheduled capture for the fold over a history: time of day at the
attempt, the timestamp written, and the fetch outcome. -/
structure CaptureStep where
  now_tod : ℕ
  timestamp : DateTime
  outcome : FetchOutcome
deriving DecidableEq

/-- Applying a sequence of captures to a camera, in order. -/
def apply_captures (cam : Camera) (steps : List CaptureStep) : Camera :=
  steps.foldl (fun c s => capture_single c s.now_tod s.timestamp s.outcome) cam

/-- Length of the trailing run of failures in a sequence of fetch outcomes. -/
def trailing_failures (outcomes : List FetchOutcome) : ℕ :=
  (outcomes.reverse.takeWhile (fun o => decide (o = .failure))).length

/-! ## Frame selectors

`select_images_for_multiday` (`src/worker/tasks/multiday.py`, lines 246-309)
and `MultidayTimelapseService.select_images_for_config`
(`src/api/services/multiday_timelapse.py`, lines 70-132) both run the same
post-query pipeline over the capture-time-ordered image list the database
query returns: group into a dict keyed by `strftime("%Y%m%d%H")` in first-
encounter order, iterate `sorted(keys)`, and from each bucket of `m` images
take all of them when `count = min(images_per_hour, m) = m`, otherwise the
images at `int(i * (m / count))` for `i in range(count)` — binary64
arithmetic.  Both pipelines are embedded separately below.
-/

/-- The hour-bucket key of an image: `image.captured_at.strftime("%Y%m%d%H")`
read as a number. -/
def hour_key (img : Image) : ℕ := img.captured_at.hourKey

/-- Adding one image to the bucket dict: append to its key's bucket if the
key is present, else append a new key (Python dicts preserve insertion
order). -/
def add_to_buckets : List (ℕ × List Image) → Image → List (ℕ × List Image)
  | [], img => [(hour_key img, [img])]
  | (k, b) :: rest, img =>
    if hour_key img = k then (k, b ++ [img]) :: rest
    else (k, b) :: add_to_buckets rest img

/-- The `hourly_buckets` dict built by the grouping loop. -/
def build_hourly_buckets (images : List Image) : List (ℕ × List Image) :=
  images.foldl add_to_buckets []

/-- Dict lookup (`hourly_buckets[hour_key]`); absent keys never arise. -/
def find_bucket (key : ℕ) : List (ℕ × List Image) → List Image
  | [] => []
  | (k, b) :: rest => if k = key then b else find_bucket key rest

/-- The index `int(i * step)` computed by the selector for a bucket of `m`
images and `count` selections: `step = m / count` is a binary64 division and
`i * step` a binary64 product (`i ≤ 59` converts to binary64 exactly);
`int` truncates, which on these nonnegative values is the floor. -/
def py_idx (m count i : ℕ) : ℕ :=
  (⌊fl ((i : ℚ) * fl ((m : ℚ) / (count : ℚ)))⌋).toNat

/-- Per-bucket selection (the body of the `for hour_key in sorted(...)` loop,
`src/worker/tasks/multiday.py` lines 297-307). -/
def select_from_bucket (images : List Image) (images_per_hour : ℕ) : List Image :=
  let count := min images_per_hour images.length
  if count = images.length then images
  else (List.range count).map (fun i => images.getD (py_idx images.length count i) default)

/-- Model of `select_images_for_multiday` (`src/worker/tasks/multiday.py`, lines
246-309) from the point where the ordered query result `all_images` is in
hand. -/
def select_images_for_multiday (all_images : List Image) (images_per_hour : ℕ) :
    List Image :=
  if all_images.isEmpty then []
  else
    let hourly_buckets := build_hourly_buckets all_images
    let sorted_keys := (hourly_buckets.map Prod.fst).mergeSort (fun a b => decide (a ≤ b))
    sorted_keys.flatMap (fun k => select_from_bucket (find_bucket k hourly_buckets) images_per_hour)

/-- Model of `MultidayTimelapseService.select_images_for_config`
(`src/api/services/multiday_timelapse.py`, lines 70-132) from the point where
the ordered query result `all_images` is in hand; the selection loop is a
verbatim copy of the worker's. -/
def select_images_for_config (all_images : List Image) (images_per_hour : ℕ) :
    List Image :=
  if all_images.isEmpty then []
  else
    let hourly_buckets := build_hourly_buckets all_images
    let sorted_keys := (hourly_buckets.map Prod.fst).mergeSort (fun a b => decide (a ≤ b))
    sorted_keys.flatMap (fun k => select_from_bucket (find_bucket k hourly_buckets) images_per_hour)

/-! ### Claim-side selector definitions

For the refinement-style claims C2 and C10 a second set of definitions is
written following the words of the spec rather than the source: grouping by
the `YYYYMMDDHH` key, iterating the distinct keys in ascending (chronological)
order, and per bucket taking `k = min(framesPerHour, m)` frames — once at the
exact real-valued indices `floor(i * m / k)` the claim states, and once at
the binary64 indices the amendment states.
-/

/-- Per-bucket selection as claim C2 words it: indices `floor(i * (m/k))`
with a real-valued `step = m / k`.  For naturals this floor is `i * m / k`. -/
def claim_bucket_exact_floor (bucket : List Image) (framesPerHour : ℕ) : List Image :=
  let m := bucket.length
  let k := min framesPerHour m
  if k = m then bucket
  else (List.range k).map (fun i => bucket.getD (i * m / k) default)

/-- Full selection as claim C2 words it (exact real-valued floor indices). -/
def claim_select_exact_floor (frames : List Image) (framesPerHour : ℕ) : List Image :=
  (((frames.map hour_key).dedup).mergeSort (fun a b => decide (a ≤ b))).flatMap
    (fun h =>
      claim_bucket_exact_floor (frames.filter (fun f => decide (hour_key f = h)))
        framesPerHour)

/-- Per-bucket selection as amended: indices `int(i * (m/k))` evaluated in
binary64 arithmetic. -/
def claim_bucket_float (bucket : List Image) (framesPerHour : ℕ) : List Image :=
  let m := bucket.length
  let k := min framesPerHour m
  if k = m then bucket
  else (List.range k).map (fun i => bucket.getD (py_idx m k i) default)

/-- Full selection as amended (binary64 indices, buckets in ascending key
order, each bucket holding its frames in input order). -/
def claim_select_float (frames : List Image) (framesPerHour : ℕ) : List Image :=
  (((frames.map hour_key).dedup).mergeSort (fun a b => decide (a ≤ b))).flatMap
    (fun h =>
      claim_bucket_float (frames.filter (fun f => decide (hour_key f = h)))
        framesPerHour)

/-! ## Cleanup service (`src/api/services/cleanup.py`)

`CleanupService.cleanup_old_images` (lines 32-112): the deletion query selects
images with `captured_at < cutoff AND is_protected == False` (plus the
optional camera filter); `protected_skipped` counts images with
`captured_at < cutoff AND is_protected == True` under the same camera filter.
The per-image loop wraps `delete_file` + `db.delete` in a `try`: an exception
leaves the row in place; otherwise the row is deleted, and the byte/file
counters increment exactly when `delete_file` returned `True` (file existed
and was unlinked).  The age cutoff is a `datetime`; it is passed in as its
serial.
-/

/-- Outcome of the `try` block around one image's deletion:
`removed counted` — no exception, row deleted, counters incremented iff
`counted` (i.e. iff `delete_file` returned `True`); `raised counted` — an
exception aborted the removal, row kept, counters already incremented iff the
exception came after a successful `delete_file`. -/
inductive DeleteOutcome
  | removed (counted : Bool)
  | raised (counted : Bool)
deriving DecidableEq

/-- Whether the loop's counters were incremented for this image. -/
def DeleteOutcome.counts : DeleteOutcome → Bool
  | .removed c => c
  | .raised c => c

/-- Whether the image's database row was deleted. -/
def DeleteOutcome.rowDeleted : DeleteOutcome → Bool
  | .removed _ => true
  | .raised _ => false

/-- The optional `camera_id` filter of the cleanup queries. -/
def matches_camera (camera_id : Option ℕ) (img : Image) : Bool :=
  match camera_id with
  | none => true
  | some c => decide (img.camera_id = c)

/-- The deletion query's predicate: older than the cutoff and unprotected. -/
def is_cleanup_candidate (cutoff : ℕ) (camera_id : Option ℕ) (img : Image) : Bool :=
  decide (img.captured_at.serial < cutoff) && !img.is_protected
    && matches_camera camera_id img

/-- The `protected_skipped` query's predicate: older than the cutoff and
protected. -/
def is_protected_skip (cutoff : ℕ) (camera_id : Option ℕ) (img : Image) : Bool :=
  decide (img.captured_at.serial < cutoff) && img.is_protected
    && matches_camera camera_id img

/-- Mirror of the `CleanupLog` record fields the sweep fills in. -/
structure CleanupLog where
  files_deleted : ℕ
  bytes_freed : ℕ
  protected_skipped : ℕ
deriving DecidableEq

/-- Model of `CleanupService.cleanup_old_images`: returns the surviving image table
and the written `CleanupLog`.  `fs` is the per-image outcome of the `try`
block, keyed by image id. -/
def cleanup_old_images (images : List Image) (fs : ℕ → DeleteOutcome)
    (camera_id : Option ℕ) (cutoff : ℕ) : List Image × CleanupLog :=
  let images_to_delete := images.filter (is_cleanup_candidate cutoff camera_id)
  let protected_count := (images.filter (is_protected_skip cutoff camera_id)).length
  let counted := images_to_delete.filter (fun img => (fs img.id).counts)
  let remaining := images.filter
    (fun img => !(is_cleanup_candidate cutoff camera_id img && (fs img.id).rowDeleted))
  (remaining,
   { files_deleted := counted.length
     bytes_freed := (counted.map (·.file_size)).sum
     protected_skipped := protected_count })

/-! ## Multi-day collection state machine

Mirrors `MultidayConfig` (`src/api/models/multiday_config.py`) and the
prospective-mode endpoints of `src/api/routers/multiday.py`:
`start_prospective_collection` (lines 272-327) and
`cancel_prospective_collection` (lines 368-423), and the bulk
`MultidayTimelapseService.unprotect_images`
(`src/api/services/multiday_timelapse.py`, lines 153-170).
Dates are modelled by day numbers (naturals).
-/

/-- Values of `multiday_configs.mode`. -/
inductive ConfigMode
  | historical
  | prospective
deriving DecidableEq

/-- Values of `multiday_configs.status`. -/
inductive ConfigStatus
  | idle
  | collecting
  | ready
  | completed
  | failed
deriving DecidableEq

/-- Mirror of the `MultidayConfig` model, restricted to the state fields the
embedded endpoints read or write. -/
structure MultidayConfig where
  id : ℕ
  camera_id : ℕ
  mode : ConfigMode
  status : ConfigStatus
  collection_start_date : Option ℕ
  collection_end_date : Option ℕ
  collection_progress_days : ℕ
  days_to_include : ℕ
  images_per_hour : ℕ
  auto_generate : Bool
deriving DecidableEq

/-- Result of the start-collection endpoint: HTTP 400 conflict, or success. -/
inductive StartResult
  | conflict
  | ok
deriving DecidableEq

/-- Model of `start_prospective_collection` (`src/api/routers/multiday.py`, lines
272-327): rejected with HTTP 400 — before any mutation — when
`config.status == "collecting"`; otherwise sets `mode="prospective"`,
`status="collecting"`, `collection_start_date=today`,
`collection_end_date=today + (days_to_collect - 1)`,
`collection_progress_days=0`, `days_to_include=days_to_collect`.
The request schema enforces `1 ≤ days_to_collect ≤ 365`. -/
def start_prospective_collection (config : MultidayConfig) (today : ℕ)
    (days_to_collect : ℕ) : MultidayConfig × StartResult :=
  if config.status = .collecting then (config, .conflict)
  else
    ({ config with
        mode := .prospective
        status := .collecting
        collection_start_date := some today
        collection_end_date := some (today + (days_to_collect - 1))
        collection_progress_days := 0
        days_to_include := days_to_collect },
     .ok)

/-- Result of the cancel-collection endpoint: HTTP 400 (no active
collection), or cancelled with the reported unprotected count. -/
inductive CancelResult
  | noActive
  | cancelled (images_unprotected : ℕ)
deriving DecidableEq

/-- The bulk `UPDATE` of `cancel_prospective_collection` on one image row:
rows whose `protected_by_config_id` matches get all three protection columns
cleared. -/
def cancel_clear (config_id : ℕ) (img : Image) : Image :=
  if img.protected_by_config_id = some config_id then
    { img with
        is_protected := false
        protection_reason := none
        protected_by_config_id := none }
  else img

/-- Model of `cancel_prospective_collection` (`src/api/routers/multiday.py`, lines
368-423): HTTP 400 (no state change) unless `status == "collecting"`;
otherwise optionally clears protection on all images owned by the config,
then resets the config to `idle` with its collection dates and progress
cleared. -/
def cancel_prospective_collection (config : MultidayConfig) (images : List Image)
    (unprotect_requested : Bool) : MultidayConfig × List Image × CancelResult :=
  if config.status ≠ .collecting then (config, images, .noActive)
  else
    let protected_images :=
      images.countP (fun img => decide (img.protected_by_config_id = some config.id))
    let images' :=
      if unprotect_requested then images.map (cancel_clear config.id) else images
    ({ config with
        status := .idle
        collection_start_date := none
        collection_end_date := none
        collection_progress_days := 0 },
     images',
     .cancelled (if unprotect_requested then protected_images else 0))

/-- The per-image update of the bulk
`MultidayTimelapseService.unprotect_images` loop: clears `is_protected` on
protected rows and touches nothing else. -/
def unprotect_one (img : Image) : Image :=
  if img.is_protected then { img with is_protected := false } else img

/-- Model of `MultidayTimelapseService.unprotect_images`
(`src/api/services/multiday_timelapse.py`, lines 153-170): clears the flag on
every protected image in the list and returns how many flags it cleared. -/
def unprotect_images (images : List Image) : List Image × ℕ :=
  (images.map unprotect_one, images.countP (fun img => img.is_protected))

/-- The spec's frame-protection invariant (§3): an unprotected frame carries
no protection reason and no owning config. -/
def FrameInv (img : Image) : Prop :=
  img.is_protected = false →
    img.protection_reason = none ∧ img.protected_by_config_id = none

instance (img : Image) : Decidable (FrameInv img) := by
  unfold FrameInv
  infer_instance

/-! ## Encoder (`src/worker/ffmpeg/encoder.py`)

`FFMPEGEncoder.encode_from_images` (lines 26-139): filters `image_paths` to
those existing on disk; raises `FileNotFoundError("No valid image files
found")` when the filtered list is empty — before the concat list is written
or the subprocess is spawned; logs a warning (and proceeds) when only some
inputs are missing; then spawns ffmpeg, killing it and raising
`TimeoutError` on timeout, raising `RuntimeError` with the process's stderr
on a non-zero exit, and raising `RuntimeError` if the output file was not
created.  Paths and diagnostic texts are natural-number surrogates.
-/

/-- The exceptions `encode_from_images` can raise. -/
inductive EncodeErr
  | noInputFrames
  | timedOut
  | encodeFailed (stderr : ℕ)
  | outputMissing
deriving DecidableEq

/-- Surrogate for `str(e)`, the diagnostic text of an encoder exception. -/
def err_text : EncodeErr → ℕ
  | .noInputFrames => 0
  | .timedOut => 1
  | .outputMissing => 2
  | .encodeFailed stderr => 3 + stderr

/-- Outcome of the ffmpeg subprocess wait: completion with an exit code and
whether the output file exists afterwards, or a wall-clock timeout. -/
inductive SubprocessOutcome
  | completed (exit_code : ℕ) (output_exists : Bool)
  | timedOut
deriving DecidableEq

/-- What one call to `encode_from_images` did: whether the subprocess was
spawned, whether the partial-missing warning was logged, and the result
(the encoded input list on success). -/
structure EncodeTrace where
  spawned : Bool
  warned_missing : Bool
  result : Except EncodeErr (List ℕ)

/-- Model of `FFMPEGEncoder.encode_from_images` with the disk and the subprocess as
oracles. -/
def encode_from_images (exists_on_disk : ℕ → Bool) (image_paths : List ℕ)
    (subprocess : SubprocessOutcome) : EncodeTrace :=
  let valid_images := image_paths.filter exists_on_disk
  if valid_images.isEmpty then
    { spawned := false, warned_missing := false, result := .error .noInputFrames }
  else
    let warned := decide (valid_images.length ≠ image_paths.length)
    match subprocess with
    | .timedOut =>
      { spawned := true, warned_missing := warned, result := .error .timedOut }
    | .completed exit_code output_exists =>
      if exit_code ≠ 0 then
        { spawned := true, warned_missing := warned
          result := .error (.encodeFailed exit_code) }
      else if !output_exists then
        { spawned := true, warned_missing := warned, result := .error .outputMissing }
      else
        { spawned := true, warned_missing := warned, result := .ok valid_images }

/-! ## Multi-day generation step (`src/worker/tasks/multiday.py`)

`run_multiday_timelapse_generation`, per config, from the point where the
selected images are in hand (lines 146-231): mark every selected image
protected and commit; create the `Timelapse` row in `processing`; encode; on
success complete the row, link the images and (for prospective configs) mark
the config `completed`; on an encoder exception set the row `failed` with
`str(e)`, for prospective configs set the config `failed`, and commit —
the images are not touched on that path.
-/

/-- Values of `timelapses.status`. -/
inductive TimelapseStatus
  | pending
  | processing
  | completed
  | failed
deriving DecidableEq

/-- Mirror of the `Timelapse` model, restricted to the fields the generation
step writes. -/
structure Timelapse where
  id : ℕ
  camera_id : ℕ
  status : TimelapseStatus
  error_message : Option ℕ
  frame_count : Option ℕ
deriving DecidableEq

/-- One config's generation step, from image selection onward, with the
encoder outcome passed in: returns the image rows, the `Timelapse` row and
the config as they are committed when the step finishes. -/
def run_generation_for_config (config : MultidayConfig) (selected : List Image)
    (timelapse_id : ℕ) (encode_result : Except EncodeErr Unit) :
    List Image × Timelapse × MultidayConfig :=
  let protected_images := selected.map (fun img => { img with is_protected := true })
  let timelapse : Timelapse :=
    { id := timelapse_id, camera_id := config.camera_id, status := .processing
      error_message := none, frame_count := none }
  match encode_result with
  | .ok _ =>
    (protected_images.map (fun img => { img with included_in_timelapse_id := some timelapse_id }),
     { timelapse with status := .completed, frame_count := some selected.length },
     if config.mode = .prospective then { config with status := .completed } else config)
  | .error e =>
    (protected_images,
     { timelapse with status := .failed, error_message := some (err_text e) },
     if config.mode = .prospective then { config with status := .failed } else config)

/-! ## Concrete instances used by counterexamples and witnesses -/

/-- A frame captured in the 12:00 hour of 2024-01-01, at minute `i % 60`:
`cex_frame 0, cex_frame 1, ...` form a single hour bucket in capture order. -/
def cex_frame (i : ℕ) : Image :=
  { id := i, camera_id := 1, captured_at := ⟨2024, 1, 1, 12, i % 60, 0⟩
    file_size := 1000, is_protected := false, protection_reason := none
    protected_by_config_id := none, included_in_timelapse_id := none }

/-- A bucket of 30 frames in one hour (a camera on a 2-minute interval). -/
def cex_frames30 : List Image := (List.range 30).map cex_frame

/-- The spec's scenario bucket `[f0..f4]` of 5 frames in one hour. -/
def scenario_frames5 : List Image := (List.range 5).map cex_frame

/-- A prospective config whose collection has finished (`status = "ready"`). -/
def ready_config : MultidayConfig :=
  { id := 3, camera_id := 1, mode := .prospective, status := .ready
    collection_start_date := some 50, collection_end_date := some 56
    collection_progress_days := 7, days_to_include := 7, images_per_hour := 2
    auto_generate := true }

/-- A prospective config in the middle of collecting. -/
def collecting_config : MultidayConfig :=
  { id := 7, camera_id := 1, mode := .prospective, status := .collecting
    collection_start_date := some 50, collection_end_date := some 56
    collection_progress_days := 3, days_to_include := 7, images_per_hour := 2
    auto_generate := true }

/-- A frame protected by `collecting_config` during prospective collection. -/
def cex_protected_image : Image :=
  { id := 9, camera_id := 1, captured_at := ⟨2024, 1, 2, 3, 4, 5⟩
    file_size := 100, is_protected := true
    protection_reason := some .prospective, protected_by_config_id := some 7
    included_in_timelapse_id := none }

/-- A camera with a midnight-wrapping blackout window 22:00-06:00 (times as
seconds of day) and no capture history. -/
def cex_camera : Camera :=
  { id := 1, capture_interval := 120, is_active := true
    blackout_start := some 79200, blackout_end := some 21600
    last_capture_at := none, last_capture_status := none
    consecutive_errors := 0 }

/-- A camera with no blackout window configured. -/
def plain_camera : Camera :=
  { id := 2, capture_interval := 120, is_active := true
    blackout_start := none, blackout_end := none
    last_capture_at := none, last_capture_status := none
    consecutive_errors := 0 }

/-- A capture step at noon (no blackout) with the given outcome. -/
def cex_step (o : FetchOutcome) : CaptureStep :=
  { now_tod := 43200, timestamp := ⟨2024, 1, 1, 12, 0, 0⟩, outcome := o }

/-! ## Helper lemmas for the binary64 model and the hour key -/

theorem rnd_err (x : ℚ) : |(rnd x : ℚ) - x| ≤ 1/2 := by
  unfold rnd
  have h0 : (⌊x⌋ : ℚ) ≤ x := Int.floor_le x
  have h1 : x < ⌊x⌋ + 1 := Int.lt_floor_add_one x
  by_cases hlt : x - ⌊x⌋ < 1/2
  · simp only [hlt, if_true]
    rw [abs_sub_le_iff]
    constructor <;> linarith
  · simp only [hlt, if_false]
    by_cases hgt : 1/2 < x - ⌊x⌋
    · simp only [hgt, if_true]
      rw [abs_sub_le_iff]
      push_cast
      constructor <;> linarith
    · by_cases hev : ⌊x⌋ % 2 = 0 <;>
        simp only [hgt, hev, if_true, if_false] <;>
        · rw [abs_sub_le_iff]
          push_cast
          constructor <;> linarith

theorem rnd_intCast (n : ℤ) : rnd (n : ℚ) = n := by
  unfold rnd
  simp [Int.floor_intCast]

theorem rnd_nonneg {x : ℚ} (hx : 0 ≤ x) : 0 ≤ rnd x := by
  unfold rnd
  have h0 : (0 : ℤ) ≤ ⌊x⌋ := Int.floor_nonneg.2 hx
  by_cases hlt : x - ⌊x⌋ < 1/2
  · simp only [hlt, if_true]
    exact h0
  · by_cases hgt : 1/2 < x - ⌊x⌋
    · simp only [hlt, hgt, if_true, if_false]
      omega
    · by_cases hev : ⌊x⌋ % 2 = 0 <;> simp only [hlt, hgt, hev, if_true, if_false] <;> omega

theorem fl_zero : fl 0 = 0 := by simp [fl]

theorem fl_nonneg {q : ℚ} (hq : 0 ≤ q) : 0 ≤ fl q := by
  unfold fl
  by_cases h : q = 0
  · simp [h]
  · simp only [h, if_false]
    have hg : (0 : ℚ) < 2 ^ flExp q := zpow_pos (by norm_num) _
    have harg : (0 : ℚ) ≤ q / 2 ^ flExp q := div_nonneg hq hg.le
    have := rnd_nonneg harg
    positivity

/-- Relative error of one binary64 rounding: at most `2 ^ (-53)` of the value. -/
theorem fl_err {q : ℚ} (hq : 0 < q) : |fl q - q| ≤ q / 2 ^ 53 := by
  unfold fl
  have hne : q ≠ 0 := ne_of_gt hq
  simp only [hne, if_false]
  set g : ℚ := 2 ^ flExp q with hg
  have hgpos : (0 : ℚ) < g := zpow_pos (by norm_num) _
  have key : (rnd (q / g) : ℚ) * g - q = ((rnd (q / g) : ℚ) - q / g) * g := by
    field_simp
  rw [key, abs_mul, abs_of_pos hgpos]
  have h1 : |(rnd (q / g) : ℚ) - q / g| ≤ 1/2 := rnd_err _
  have h2 : |(rnd (q / g) : ℚ) - q / g| * g ≤ (1/2) * g :=
    mul_le_mul_of_nonneg_right h1 hgpos.le
  refine h2.trans ?_
  -- (1/2) * 2 ^ (log q - 52) = 2 ^ (log q - 53) ≤ q / 2 ^ 53
  have hlog : (2 : ℚ) ^ Int.log 2 q ≤ q := by
    exact_mod_cast Int.zpow_log_le_self (R := ℚ) (b := 2) (by norm_num) hq
  have hsplit : g = 2 ^ Int.log 2 q * 2 ^ (-52 : ℤ) := by
    rw [hg]
    show (2:ℚ) ^ (Int.log 2 q - 52) = _
    rw [sub_eq_add_neg, zpow_add₀ (by norm_num : (2:ℚ) ≠ 0) (Int.log 2 q) (-52)]
  rw [hsplit]
  have h252 : (2 : ℚ) ^ (-52 : ℤ) = 1 / 2 ^ 52 := by
    rw [zpow_neg]
    norm_num
  rw [h252]
  have heq : (1:ℚ)/2 * (2 ^ Int.log 2 q * (1 / 2 ^ 52)) = 2 ^ Int.log 2 q / 2 ^ 53 := by
    ring
  rw [heq]
  gcongr

theorem fl_le {q : ℚ} (hq : 0 ≤ q) : fl q ≤ q + q / 2 ^ 53 := by
  rcases eq_or_lt_of_le hq with h | h
  · simp [← h, fl_zero]
  · have := fl_err h
    rw [abs_sub_le_iff] at this
    linarith [this.1]

theorem fl_ge {q : ℚ} (hq : 0 ≤ q) : q - q / 2 ^ 53 ≤ fl q := by
  rcases eq_or_lt_of_le hq with h | h
  · simp [← h, fl_zero]
  · have := fl_err h
    rw [abs_sub_le_iff] at this
    linarith [this.2]

/-- Evaluation rule for `fl` once the binade of the argument is known. -/
theorem fl_eq_of_bounds {q : ℚ} (e : ℤ) (h0 : 0 < q)
    (h1 : (2 : ℚ) ^ e ≤ q) (h2 : q < (2 : ℚ) ^ (e + 1)) :
    fl q = (rnd (q / 2 ^ (e - 52)) : ℚ) * 2 ^ (e - 52) := by
  have hlog : Int.log 2 q = e := by
    have hle : e ≤ Int.log 2 q :=
      (Int.zpow_le_iff_le_log (by norm_num) h0).mp (by exact_mod_cast h1)
    have hlt : Int.log 2 q < e + 1 :=
      (Int.lt_zpow_iff_log_lt (by norm_num) h0).mp (by exact_mod_cast h2)
    omega
  unfold fl flExp
  simp [ne_of_gt h0, hlog]

theorem hourKey_eq_serial_div {t : DateTime} (h : t.InRange) :
    t.hourKey = t.serial / 10000 := by
  obtain ⟨-, -, -, -, -, -, -, hmi, hs⟩ := h
  unfold DateTime.hourKey DateTime.serial
  omega

/-- The hour key is monotone in chronological order (for in-range
timestamps): sorting buckets by key is sorting them chronologically. -/
theorem hourKey_mono {t₁ t₂ : DateTime} (h₁ : t₁.InRange) (h₂ : t₂.InRange)
    (h : t₁.serial ≤ t₂.serial) : t₁.hourKey ≤ t₂.hourKey := by
  rw [hourKey_eq_serial_div h₁, hourKey_eq_serial_div h₂]
  exact Nat.div_le_div_right h

/-! ## Capture-service lemmas and claims C4, C5 -/

theorem capture_single_blackout_fields (c : Camera) (n : ℕ) (ts : DateTime)
    (o : FetchOutcome) :
    (capture_single c n ts o).blackout_start = c.blackout_start ∧
      (capture_single c n ts o).blackout_end = c.blackout_end := by
  unfold capture_single capture_attempt
  by_cases h : c.is_in_blackout n <;> cases o <;> simp [h]

theorem is_in_blackout_of_fields {c₁ c₂ : Camera}
    (h1 : c₁.blackout_start = c₂.blackout_start)
    (h2 : c₁.blackout_end = c₂.blackout_end) (t : ℕ) :
    c₁.is_in_blackout t = c₂.is_in_blackout t := by
  unfold Camera.is_in_blackout
  rw [h1, h2]

theorem apply_captures_blackout_fields (cam : Camera) (steps : List CaptureStep) :
    (apply_captures cam steps).blackout_start = cam.blackout_start ∧
      (apply_captures cam steps).blackout_end = cam.blackout_end := by
  induction steps generalizing cam with
  | nil => exact ⟨rfl, rfl⟩
  | cons s rest ih =>
    have hstep := capture_single_blackout_fields cam s.now_tod s.timestamp s.outcome
    have hrest := ih (capture_single cam s.now_tod s.timestamp s.outcome)
    exact ⟨hrest.1.trans hstep.1, hrest.2.trans hstep.2⟩

theorem trailing_failures_concat_failure (l : List FetchOutcome) :
    trailing_failures (l ++ [.failure]) = trailing_failures l + 1 := by
  unfold trailing_failures
  simp [List.reverse_append]

theorem trailing_failures_concat_success (l : List FetchOutcome) :
    trailing_failures (l ++ [.success]) = 0 := by
  unfold trailing_failures
  simp [List.reverse_append]

theorem apply_captures_trailing (cam : Camera) (steps : List CaptureStep)
    (h0 : cam.consecutive_errors = 0)
    (hnb : ∀ st ∈ steps, cam.is_in_blackout st.now_tod = false) :
    (apply_captures cam steps).consecutive_errors
      = trailing_failures (steps.map (fun st => st.outcome)) := by
  induction steps using List.reverseRecOn with
  | nil => simpa [apply_captures, trailing_failures]
  | append_singleton l a ih =>
    have hl : ∀ st ∈ l, cam.is_in_blackout st.now_tod = false := by
      intro st hst
      exact hnb st (List.mem_append.mpr (Or.inl hst))
    have ha : cam.is_in_blackout a.now_tod = false :=
      hnb a (List.mem_append.mpr (Or.inr (List.mem_singleton.mpr rfl)))
    have hsplit : apply_captures cam (l ++ [a])
        = capture_single (apply_captures cam l) a.now_tod a.timestamp a.outcome := by
      unfold apply_captures
      rw [List.foldl_append]
      rfl
    have hfields := apply_captures_blackout_fields cam l
    have hbl : (apply_captures cam l).is_in_blackout a.now_tod = false := by
      rw [is_in_blackout_of_fields hfields.1 hfields.2 a.now_tod]
      exact ha
    rw [hsplit, capture_single, hbl]
    cases houtcome : a.outcome with
    | success =>
      simp [capture_attempt, List.map_append, houtcome,
        trailing_failures_concat_success]
    | failure =>
      simp only [capture_attempt, Bool.false_eq_true, if_false, List.map_append,
        List.map_cons, List.map_nil, houtcome, trailing_failures_concat_failure]
      rw [ih hl]

/-- C4: for a fresh camera row (`consecutive_errors = 0`, the column default)
and any sequence of scheduled, non-blackout capture attempts,
`consecutive_errors` resets to 0 on a successful fetch, increases by exactly 1
on a failed fetch, is changed by nothing else, and therefore equals the length
of the trailing run of failures after the whole sequence. -/
theorem consecutive_errors_tracks_trailing_failures
    (cam : Camera) (steps : List CaptureStep)
    (hcam : cam.consecutive_errors = 0)
    (hnb : ∀ st ∈ steps, cam.is_in_blackout st.now_tod = false) :
    (∀ (c : Camera) (n : ℕ) (ts : DateTime), c.is_in_blackout n = false →
        (capture_single c n ts .success).consecutive_errors = 0) ∧
    (∀ (c : Camera) (n : ℕ) (ts : DateTime), c.is_in_blackout n = false →
        (capture_single c n ts .failure).consecutive_errors
          = c.consecutive_errors + 1) ∧
    (apply_captures cam steps).consecutive_errors
      = trailing_failures (steps.map (fun st => st.outcome)) := by
  refine ⟨?_, ?_, apply_captures_trailing cam steps hcam hnb⟩
  · intro c n ts h
    simp [capture_single, h, capture_attempt]
  · intro c n ts h
    simp [capture_single, h, capture_attempt]

/-- Witness for C4 at a concrete camera and history
failure-success-failure-failure: the final error counter is 2, the length of
the trailing failure run. -/
theorem consecutive_errors_tracks_trailing_failures_witness :
    plain_camera.consecutive_errors = 0 ∧
      (apply_captures plain_camera
          [cex_step .failure, cex_step .success, cex_step .failure, cex_step .failure]
        ).consecutive_errors
        = trailing_failures [.failure, .success, .failure, .failure] := by
  refine ⟨rfl, ?_⟩
  have h := (consecutive_errors_tracks_trailing_failures plain_camera
    [cex_step .failure, cex_step .success, cex_step .failure, cex_step .failure]
    rfl (by decide)).2.2
  simpa using h

/-- C5: the blackout check of `Camera.is_in_blackout`: with both bounds set
and `start > end` the window wraps midnight and a time is in blackout exactly
when `t ≥ start` or `t ≤ end`; with `start ≤ end` exactly when
`start ≤ t ≤ end`; with either bound unset nothing is in blackout. -/
theorem blackout_window_semantics (cam : Camera) (t : ℕ) :
    (∀ s e : ℕ, cam.blackout_start = some s → cam.blackout_end = some e →
      (e < s → (cam.is_in_blackout t = true ↔ (s ≤ t ∨ t ≤ e))) ∧
      (s ≤ e → (cam.is_in_blackout t = true ↔ (s ≤ t ∧ t ≤ e)))) ∧
    ((cam.blackout_start = none ∨ cam.blackout_end = none) →
      cam.is_in_blackout t = false) := by
  constructor
  · intro s e hs he
    constructor
    · intro hwrap
      unfold Camera.is_in_blackout
      rw [hs, he]
      simp [hwrap]
    · intro hord
      unfold Camera.is_in_blackout
      rw [hs, he]
      simp [Nat.not_lt.mpr hord]
  · intro hnone
    unfold Camera.is_in_blackout
    rcases hnone with h | h
    · rw [h]
    · rw [h]
      cases hbs : cam.blackout_start <;> rfl

/-- Witness for C5 at the concrete wrap-around camera (22:00-06:00):
23:00 and 05:00 are in blackout, noon is not. -/
theorem blackout_window_semantics_witness :
    cex_camera.blackout_start = some 79200 ∧ cex_camera.blackout_end = some 21600 ∧
    (21600 < 79200) ∧
    cex_camera.is_in_blackout 82800 = true ∧
    cex_camera.is_in_blackout 18000 = true ∧
    cex_camera.is_in_blackout 43200 = false := by
  have h23 := (((blackout_window_semantics cex_camera 82800).1 79200 21600 rfl rfl).1
    (by decide)).mpr (Or.inl (by decide))
  have h05 := (((blackout_window_semantics cex_camera 18000).1 79200 21600 rfl rfl).1
    (by decide)).mpr (Or.inr (by decide))
  have hnoon : cex_camera.is_in_blackout 43200 = false := by
    have hiff := ((blackout_window_semantics cex_camera 43200).1 79200 21600 rfl rfl).1
      (by decide)
    by_contra hcon
    have : cex_camera.is_in_blackout 43200 = true := by
      revert hcon
      cases cex_camera.is_in_blackout 43200 <;> simp
    exact absurd (hiff.mp this) (by decide)
  exact ⟨rfl, rfl, by decide, h23, h05, hnoon⟩

/-! ## Claim C1: the cleanup sweep and the protection invariant -/

/-- C1: for every image table, every filesystem behaviour, every optional
camera filter and every retention cutoff: the sweep never changes the number
of protected frames; `protected_skipped` counts exactly the frames older than
the cutoff that are protected (under the same camera filter); every protected
frame survives untouched; and a frame can only be deleted if it is older than
the cutoff, unprotected, and camera-matching. -/
theorem cleanup_sweep_preserves_protected (images : List Image)
    (fs : ℕ → DeleteOutcome) (camera_id : Option ℕ) (cutoff : ℕ) :
    ((cleanup_old_images images fs camera_id cutoff).1.countP
        (fun img => img.is_protected)
      = images.countP (fun img => img.is_protected)) ∧
    ((cleanup_old_images images fs camera_id cutoff).2.protected_skipped
      = (images.filter (is_protected_skip cutoff camera_id)).length) ∧
    (∀ img ∈ images, img.is_protected = true →
      img ∈ (cleanup_old_images images fs camera_id cutoff).1) ∧
    (∀ img ∈ images, img ∉ (cleanup_old_images images fs camera_id cutoff).1 →
      img.captured_at.serial < cutoff ∧ img.is_protected = false ∧
        matches_camera camera_id img = true) := by
  refine ⟨?_, rfl, ?_, ?_⟩
  · show (images.filter _).countP _ = _
    rw [List.countP_filter]
    apply List.countP_congr
    intro img _
    cases hprot : img.is_protected <;>
      simp [is_cleanup_candidate, hprot]
  · intro img hmem hprot
    apply List.mem_filter.mpr
    refine ⟨hmem, ?_⟩
    simp [is_cleanup_candidate, hprot]
  · intro img hmem hnot
    have hp : ¬(is_cleanup_candidate cutoff camera_id img
        && (fs img.id).rowDeleted) = false := by
      intro hfalse
      exact hnot (List.mem_filter.mpr ⟨hmem, by simp [hfalse]⟩)
    have hcand : is_cleanup_candidate cutoff camera_id img = true := by
      revert hp
      cases h : is_cleanup_candidate cutoff camera_id img <;> simp
    unfold is_cleanup_candidate at hcand
    simp only [Bool.and_eq_true, decide_eq_true_eq, Bool.not_eq_true'] at hcand
    exact ⟨hcand.1.1, hcand.1.2, hcand.2⟩

/-- Witness for C1: a sweep over one old protected frame and one old
unprotected frame (cutoff far in the future, files deletable): the protected
frame survives, the protected count stays 1, `protected_skipped` is 1. -/
theorem cleanup_sweep_preserves_protected_witness :
    cex_protected_image.is_protected = true ∧
      cex_protected_image
        ∈ (cleanup_old_images [cex_protected_image, cex_frame 0]
            (fun _ => .removed true) none 99999999999999).1 ∧
      (cleanup_old_images [cex_protected_image, cex_frame 0]
          (fun _ => .removed true) none 99999999999999).1.countP
          (fun img => img.is_protected)
        = [cex_protected_image, cex_frame 0].countP (fun img => img.is_protected) := by
  refine ⟨rfl, ?_, ?_⟩
  · exact (cleanup_sweep_preserves_protected [cex_protected_image, cex_frame 0]
      (fun _ => .removed true) none 99999999999999).2.2.1 cex_protected_image
      (by simp) rfl
  · exact (cleanup_sweep_preserves_protected [cex_protected_image, cex_frame 0]
      (fun _ => .removed true) none 99999999999999).1

/-! ## Claim C6: starting a prospective collection -/

/-- Counterexample to C6 as stated: `start_prospective_collection` is *not*
only legal from `idle` — from a config in `status = "ready"` (not idle) the
call succeeds and restarts collection; the endpoint only rejects
`status = "collecting"`. -/
theorem start_collection_nonidle_accepted :
    ready_config.status ≠ .idle ∧
      (start_prospective_collection ready_config 100 7).2 = .ok ∧
      (start_prospective_collection ready_config 100 7).1.status = .collecting := by
  decide

/-- C6 as amended: the call is rejected with a conflict — leaving every field
unchanged — exactly when the config is already `collecting`; from any other
status it succeeds and sets `mode=prospective`, `status=collecting`,
`collectionStartDate=today`, `collectionEndDate=today+daysToCollect-1`,
`progressDays=0` and `daysToInclude=daysToCollect` (the request schema
enforces `daysToCollect ≥ 1`). -/
theorem start_collection_semantics (config : MultidayConfig) (today d : ℕ)
    (hd : 1 ≤ d) :
    (config.status = .collecting →
      start_prospective_collection config today d = (config, .conflict)) ∧
    (config.status ≠ .collecting →
      start_prospective_collection config today d
        = ({ config with
              mode := .prospective
              status := .collecting
              collection_start_date := some today
              collection_end_date := some (today + d - 1)
              collection_progress_days := 0
              days_to_include := d }, .ok)) := by
  constructor
  · intro h
    simp [start_prospective_collection, h]
  · intro h
    have hdate : today + (d - 1) = today + d - 1 := by omega
    simp [start_prospective_collection, h, hdate]

/-- Witness for C6 (amended) at the concrete `ready` config. -/
theorem start_collection_semantics_witness :
    1 ≤ 7 ∧ ready_config.status ≠ ConfigStatus.collecting ∧
      start_prospective_collection ready_config 100 7
        = ({ ready_config with
              mode := .prospective
              status := .collecting
              collection_start_date := some 100
              collection_end_date := some 106
              collection_progress_days := 0
              days_to_include := 7 }, .ok) := by
  refine ⟨by decide, by decide, ?_⟩
  exact (start_collection_semantics ready_config 100 7 (by decide)).2 (by decide)

/-! ## Claim C7: encoder input filtering -/

/-- C7: `encode_from_images` filters its inputs to the paths existing on
disk; with no survivor it fails with the no-input error before any subprocess
is spawned; with at least one survivor it spawns the subprocess, never raises
the no-input error, and logs the partial-missing warning exactly when some
inputs were dropped. -/
theorem encoder_input_filtering (exists_on_disk : ℕ → Bool) (image_paths : List ℕ)
    (subprocess : SubprocessOutcome) :
    (image_paths.filter exists_on_disk = [] →
      encode_from_images exists_on_disk image_paths subprocess
        = { spawned := false, warned_missing := false
            result := .error .noInputFrames }) ∧
    (image_paths.filter exists_on_disk ≠ [] →
      (encode_from_images exists_on_disk image_paths subprocess).spawned = true ∧
      (encode_from_images exists_on_disk image_paths subprocess).result
        ≠ .error .noInputFrames ∧
      ((image_paths.filter exists_on_disk).length ≠ image_paths.length →
        (encode_from_images exists_on_disk image_paths subprocess).warned_missing
          = true)) := by
  constructor
  · intro h
    simp [encode_from_images, h]
  · intro h
    have hne : (image_paths.filter exists_on_disk).isEmpty = false := by
      simp [List.isEmpty_iff, h]
    cases subprocess with
    | timedOut => simp [encode_from_images, hne]
    | completed exit_code output_exists =>
      by_cases hcode : exit_code = 0
      · cases output_exists <;> simp [encode_from_images, hne, hcode]
      · simp [encode_from_images, hne, hcode]

/-- Witness for C7: both branches at concrete inputs — all paths missing
fails fast without spawning; one of two paths missing spawns with the
warning. -/
theorem encoder_input_filtering_witness :
    ([1, 2].filter (fun _ => false) = ([] : List ℕ)) ∧
      encode_from_images (fun _ => false) [1, 2] (.completed 0 true)
        = { spawned := false, warned_missing := false
            result := .error .noInputFrames } ∧
      ([1, 2].filter (fun p => decide (p = 1)) ≠ ([] : List ℕ)) ∧
      (encode_from_images (fun p => decide (p = 1)) [1, 2]
          (.completed 0 true)).spawned = true ∧
      (encode_from_images (fun p => decide (p = 1)) [1, 2]
          (.completed 0 true)).warned_missing = true := by
  have h1 := (encoder_input_filtering (fun _ => false) [1, 2]
    (.completed 0 true)).1 (by decide)
  have h2 := (encoder_input_filtering (fun p => decide (p = 1)) [1, 2]
    (.completed 0 true)).2 (by decide)
  exact ⟨by decide, h1, by decide, h2.1, h2.2.2 (by decide)⟩

/-! ## Claim C8: encode failure leaves frames protected -/

/-- C8: when the encoding step of a multi-day generation run fails, the
`Timelapse` row is committed `failed` carrying the exception's text, a
prospective config is also marked `failed`, and the selected frames are
exactly the protected copies made before encoding — none deleted, none
unprotected. -/
theorem generation_failure_preserves_frames (config : MultidayConfig)
    (selected : List Image) (timelapse_id : ℕ) (e : EncodeErr) :
    ((run_generation_for_config config selected timelapse_id (.error e)).2.1.status
      = .failed) ∧
    ((run_generation_for_config config selected timelapse_id (.error e)).2.1.error_message
      = some (err_text e)) ∧
    (config.mode = .prospective →
      (run_generation_for_config config selected timelapse_id (.error e)).2.2.status
        = .failed) ∧
    ((run_generation_for_config config selected timelapse_id (.error e)).1
      = selected.map (fun img => { img with is_protected := true })) ∧
    (∀ img ∈ (run_generation_for_config config selected timelapse_id (.error e)).1,
      img.is_protected = true) ∧
    ((run_generation_for_config config selected timelapse_id (.error e)).1.length
      = selected.length) := by
  refine ⟨rfl, rfl, ?_, rfl, ?_, by simp [run_generation_for_config]⟩
  · intro h
    simp [run_generation_for_config, h]
  · intro img hmem
    simp only [run_generation_for_config, List.mem_map] at hmem
    obtain ⟨x, -, rfl⟩ := hmem
    rfl

/-- Witness for C8 at a concrete prospective config, one selected frame and a
timeout failure. -/
theorem generation_failure_preserves_frames_witness :
    collecting_config.mode = .prospective ∧
      (run_generation_for_config collecting_config [cex_frame 0] 42
          (.error .timedOut)).2.1.status = .failed ∧
      (run_generation_for_config collecting_config [cex_frame 0] 42
          (.error .timedOut)).2.2.status = .failed ∧
      (run_generation_for_config collecting_config [cex_frame 0] 42
          (.error .timedOut)).1
        = [{ cex_frame 0 with is_protected := true }] := by
  have h := generation_failure_preserves_frames collecting_config [cex_frame 0] 42
    .timedOut
  exact ⟨rfl, h.1, h.2.2.1 rfl, h.2.2.2.1⟩

/-! ## Claim C9: clearing protection -/

/-- Counterexample to C9 as stated: the bulk unprotect operation
(`MultidayTimelapseService.unprotect_images`) clears only the `is_protected`
flag — on a frame protected for a prospective collection it leaves
`protection_reason` and `protected_by_config_id` set, violating the
invariant that an unprotected frame carries neither. -/
theorem unprotect_images_keeps_reason :
    ((unprotect_images [cex_protected_image]).1.getD 0 default).is_protected
        = false ∧
      ((unprotect_images [cex_protected_image]).1.getD 0 default).protection_reason
        = some .prospective ∧
      ((unprotect_images [cex_protected_image]).1.getD 0 default).protected_by_config_id
        = some 7 ∧
      ¬ FrameInv ((unprotect_images [cex_protected_image]).1.getD 0 default) := by
  decide

/-- C9 as amended: `cancel_prospective_collection`'s unprotect clears the
flag, the reason and the owning config id together on every frame owned by
the config (and preserves the frame invariant across the whole table), while
the bulk `unprotect_images` clears only the flag, leaving
`protection_reason` and `protected_by_config_id` untouched. -/
theorem protection_clearing_semantics (config : MultidayConfig)
    (images : List Image) (hc : config.status = .collecting) :
    ((cancel_prospective_collection config images true).2.1
      = images.map (cancel_clear config.id)) ∧
    (∀ img : Image, img.protected_by_config_id = some config.id →
      (cancel_clear config.id img).is_protected = false ∧
      (cancel_clear config.id img).protection_reason = none ∧
      (cancel_clear config.id img).protected_by_config_id = none) ∧
    ((∀ img ∈ images, FrameInv img) →
      ∀ img ∈ (cancel_prospective_collection config images true).2.1, FrameInv img) ∧
    (∀ imgs : List Image, (unprotect_images imgs).1 = imgs.map unprotect_one) ∧
    (∀ img : Image, (unprotect_one img).is_protected = false ∧
      (unprotect_one img).protection_reason = img.protection_reason ∧
      (unprotect_one img).protected_by_config_id = img.protected_by_config_id) := by
  have hcancel : (cancel_prospective_collection config images true).2.1
      = images.map (cancel_clear config.id) := by
    simp [cancel_prospective_collection, hc]
  refine ⟨hcancel, ?_, ?_, fun _ => rfl, ?_⟩
  · intro img hown
    simp [cancel_clear, hown]
  · intro hInv img hmem
    rw [hcancel] at hmem
    obtain ⟨x, hx, rfl⟩ := List.mem_map.mp hmem
    unfold cancel_clear
    by_cases hown : x.protected_by_config_id = some config.id
    · simp only [hown, if_true]
      intro _
      exact ⟨rfl, rfl⟩
    · simp only [hown, if_false]
      exact hInv x hx
  · intro img
    unfold unprotect_one
    cases hprot : img.is_protected <;> simp [hprot]

/-- Witness for C9 (amended): cancelling the concrete collecting config with
unprotect clears all three protection columns of its frame. -/
theorem protection_clearing_semantics_witness :
    collecting_config.status = .collecting ∧
      (cancel_prospective_collection collecting_config [cex_protected_image] true).2.1
        = [{ cex_protected_image with
              is_protected := false
              protection_reason := none
              protected_by_config_id := none }] := by
  refine ⟨rfl, ?_⟩
  have h := (protection_clearing_semantics collecting_config [cex_protected_image]
    rfl).1
  rw [h]
  decide

/-! ## Claim C10: the two selector implementations -/

/-- C10: the worker's `select_images_for_multiday` and the service's
`select_images_for_config` run the identical post-query pipeline: on the same
ordered image list and the same `images_per_hour` they return the same frames
in the same order. -/
theorem selector_implementations_agree :
    ∀ (all_images : List Image) (images_per_hour : ℕ),
      select_images_for_config all_images images_per_hour
        = select_images_for_multiday all_images images_per_hour :=
  fun _ _ => rfl

/-! ## Claim C3: shape of the per-bucket selection

`framesPerHour` is constrained to `[1, 60]` by the `ck_multiday_images_per_hour`
check constraint (`src/api/models/multiday_config.py`), so the quantification
over `framesPerHour` below carries `k ≤ 60`.  Within that range the binary64
rounding errors are too small to disturb the claimed shape, for buckets of
any size.
-/

theorem py_idx_zero (m count : ℕ) : py_idx m count 0 = 0 := by
  simp [py_idx, fl_zero]

theorem py_idx_strict_mono_succ {m k : ℕ} (hk60 : k ≤ 60) (hkm : k < m)
    {i : ℕ} (hik : i + 1 < k) : py_idx m k i < py_idx m k (i + 1) := by
  have hk1 : 1 ≤ k := by omega
  have hK1 : (1 : ℚ) ≤ (k : ℚ) := by exact_mod_cast hk1
  have hK60 : (k : ℚ) ≤ 60 := by exact_mod_cast hk60
  have hKM : (k : ℚ) + 1 ≤ (m : ℚ) := by exact_mod_cast (by omega : k + 1 ≤ m)
  set K : ℚ := (k : ℚ) with hK
  set M : ℚ := (m : ℚ) with hM
  have hK0 : (0 : ℚ) < K := by linarith
  have hq61 : (61 : ℚ) / 60 ≤ M / K := by
    rw [le_div_iff₀ hK0]
    nlinarith
  have hq0 : (0 : ℚ) < M / K := by linarith
  set s : ℚ := fl (M / K) with hs
  have hs_lb : M / K - (M / K) / 2 ^ 53 ≤ s := fl_ge hq0.le
  have hs_ub : s ≤ M / K + (M / K) / 2 ^ 53 := fl_le hq0.le
  have hs61 : (61 : ℚ) / 60 * (1 - 1 / 2 ^ 53) ≤ s := by nlinarith
  have hs_pos : (0 : ℚ) < s := by nlinarith
  set A : ℚ := (i : ℚ) * s with hA
  have hA_nonneg : (0 : ℚ) ≤ A := by positivity
  have hA58 : A ≤ 58 * s := by
    have hi58 : (i : ℚ) ≤ 58 := by exact_mod_cast (by omega : i ≤ 58)
    rw [hA]
    exact mul_le_mul_of_nonneg_right hi58 hs_pos.le
  have ha_ub : fl A ≤ A + A / 2 ^ 53 := fl_le hA_nonneg
  have hcast : ((i + 1 : ℕ) : ℚ) = (i : ℚ) + 1 := by push_cast; ring
  have hAs : ((i : ℚ) + 1) * s = A + s := by rw [hA]; ring
  have hb_nonneg : (0 : ℚ) ≤ A + s := by positivity
  have hb_lb : (A + s) - (A + s) / 2 ^ 53 ≤ fl (A + s) := fl_ge hb_nonneg
  have hgap : fl A + 1 ≤ fl (A + s) := by nlinarith
  have hfloor : ⌊fl A⌋ + 1 ≤ ⌊fl (A + s)⌋ := by
    have h1 : ⌊fl A + 1⌋ ≤ ⌊fl (A + s)⌋ := Int.floor_le_floor hgap
    rwa [Int.floor_add_one] at h1
  have h0a : (0 : ℤ) ≤ ⌊fl A⌋ := Int.floor_nonneg.2 (fl_nonneg hA_nonneg)
  show (⌊fl ((i : ℚ) * fl (M / K))⌋).toNat
      < (⌊fl (((i + 1 : ℕ) : ℚ) * fl (M / K))⌋).toNat
  rw [hcast, ← hs, ← hA, hAs]
  omega

theorem py_idx_lt_last {m k : ℕ} (hk60 : k ≤ 60) (hkm : k < m)
    {i : ℕ} (hik : i < k) : py_idx m k i < m - 1 := by
  have hk1 : 1 ≤ k := by omega
  have hK1 : (1 : ℚ) ≤ (k : ℚ) := by exact_mod_cast hk1
  have hK60 : (k : ℚ) ≤ 60 := by exact_mod_cast hk60
  have hKM : (k : ℚ) + 1 ≤ (m : ℚ) := by exact_mod_cast (by omega : k + 1 ≤ m)
  have hiK : (i : ℚ) + 1 ≤ (k : ℚ) := by exact_mod_cast (by omega : i + 1 ≤ k)
  set K : ℚ := (k : ℚ) with hK
  set M : ℚ := (m : ℚ) with hM
  have hK0 : (0 : ℚ) < K := by linarith
  set R : ℚ := M / K with hR
  have hRK : R * K = M := div_mul_cancel₀ M (ne_of_gt hK0)
  have hq61 : (61 : ℚ) / 60 ≤ R := by
    rw [hR, le_div_iff₀ hK0]
    nlinarith
  have hR0 : (0 : ℚ) < R := by linarith
  set s : ℚ := fl R with hs
  have hs_lb : R - R / 2 ^ 53 ≤ s := fl_ge hR0.le
  have hs_ub : s ≤ R + R / 2 ^ 53 := fl_le hR0.le
  have hs_pos : (0 : ℚ) < s := by nlinarith
  set A : ℚ := (i : ℚ) * s with hA
  have hA_nonneg : (0 : ℚ) ≤ A := by positivity
  have hAk : A ≤ (K - 1) * s := by
    rw [hA]
    exact mul_le_mul_of_nonneg_right (by linarith) hs_pos.le
  have ha_ub : fl A ≤ A + A / 2 ^ 53 := fl_le hA_nonneg
  -- (K-1) * s * (1 + u) < M - 1 with u = 2⁻⁵³:
  -- reduces to (K-1) * R * (2u + u²) < R - 1, true since R ≥ 61/60 and K ≤ 60.
  have hkey : fl A < M - 1 := by
    rw [← hRK]
    nlinarith [mul_le_mul_of_nonneg_right hs_ub
        (by linarith : (0 : ℚ) ≤ K - 1),
      mul_pos hR0 hK0]
  have hfloor : ⌊fl A⌋ < (m : ℤ) - 1 := by
    apply Int.floor_lt.mpr
    have hcast : (((m : ℤ) - 1 : ℤ) : ℚ) = M - 1 := by
      rw [hM]
      push_cast
      ring
    rw [hcast]
    exact hkey
  have h0a : (0 : ℤ) ≤ ⌊fl A⌋ := Int.floor_nonneg.2 (fl_nonneg hA_nonneg)
  show (⌊fl ((i : ℚ) * fl (M / K))⌋).toNat < m - 1
  rw [← hR, ← hs, ← hA]
  omega

theorem py_idx_mono {m k : ℕ} (hk60 : k ≤ 60) (hkm : k < m)
    {i j : ℕ} (hij : i < j) (hjk : j < k) : py_idx m k i < py_idx m k j := by
  induction j with
  | zero => omega
  | succ n ih =>
    rcases Nat.lt_succ_iff_lt_or_eq.mp hij with h | h
    · exact lt_trans (ih h (by omega)) (py_idx_strict_mono_succ hk60 hkm hjk)
    · subst h
      exact py_idx_strict_mono_succ hk60 hkm hjk

theorem select_from_bucket_take_all {images : List Image} {k : ℕ}
    (h : images.length ≤ k) : select_from_bucket images k = images := by
  simp only [select_from_bucket]
  rw [min_eq_right h, if_pos rfl]

theorem select_from_bucket_of_lt {images : List Image} {k : ℕ}
    (h : k < images.length) :
    select_from_bucket images k
      = (List.range k).map
          (fun i => images.getD (py_idx images.length k i) default) := by
  simp only [select_from_bucket]
  rw [min_eq_left h.le, if_neg (Nat.ne_of_lt h)]

/-- C3: per-bucket selection shape.  For every bucket and every
`framesPerHour = k` (`1 ≤ k ≤ 60` per the data model) with `k ≤ m`: when
`k = m` the bucket is returned unchanged; the selection always has exactly
`k` frames; when `k < m` they are the frames at the indices
`int(i * (m/k))`, which are strictly increasing, start at 0, and never reach
the last index `m - 1`; and any bucket with `m ≤ k` is returned unchanged in
order. -/
theorem bucket_selection_shape (images : List Image) (k : ℕ)
    (_hk1 : 1 ≤ k) (hk60 : k ≤ 60) (hkm : k ≤ images.length) :
    (k = images.length → select_from_bucket images k = images) ∧
    (select_from_bucket images k).length = k ∧
    (k < images.length →
      select_from_bucket images k
        = ((List.range k).map (py_idx images.length k)).map
            (fun idx => images.getD idx default) ∧
      List.Pairwise (· < ·) ((List.range k).map (py_idx images.length k)) ∧
      py_idx images.length k 0 = 0 ∧
      (∀ i < k, py_idx images.length k i < images.length - 1)) ∧
    (∀ (b : List Image) (fph : ℕ), b.length ≤ fph → select_from_bucket b fph = b) := by
  refine ⟨?_, ?_, ?_, fun b fph hle => select_from_bucket_take_all hle⟩
  · intro hkeq
    exact select_from_bucket_take_all (le_of_eq hkeq.symm)
  · by_cases hkeq : k = images.length
    · rw [select_from_bucket_take_all (le_of_eq hkeq.symm), hkeq]
    · rw [select_from_bucket_of_lt (lt_of_le_of_ne hkm hkeq)]
      simp
  · intro hlt
    refine ⟨?_, ?_, py_idx_zero _ _, fun i hi => py_idx_lt_last hk60 hlt hi⟩
    · rw [select_from_bucket_of_lt hlt, List.map_map]
      rfl
    · rw [List.pairwise_map]
      rw [List.pairwise_iff_getElem]
      intro a b ha hb hab
      simp only [List.length_range] at ha hb
      simp only [List.getElem_range]
      exact py_idx_mono hk60 hlt hab hb

/-- Witness for C3 at the spec's scenario bucket of 5 frames with
`framesPerHour = 2`. -/
theorem bucket_selection_shape_witness :
    (1 ≤ 2 ∧ 2 ≤ 60 ∧ 2 ≤ scenario_frames5.length) ∧
      (select_from_bucket scenario_frames5 2).length = 2 := by
  refine ⟨⟨by decide, by decide, by decide⟩, ?_⟩
  exact (bucket_selection_shape scenario_frames5 2 (by decide) (by decide)
    (by decide)).2.1

/-! ## Claim C2: bucket grouping and selection order

The dict-based grouping of the source (`hourly_buckets` built in encounter
order, then `sorted(hourly_buckets.keys())`) equals the claim's grouping
(distinct keys in ascending order, each bucket the subsequence of frames
with that key).
-/

theorem find_bucket_add (key : ℕ) (bs : List (ℕ × List Image)) (img : Image) :
    find_bucket key (add_to_buckets bs img)
      = if hour_key img = key then find_bucket key bs ++ [img]
        else find_bucket key bs := by
  induction bs with
  | nil =>
    by_cases h : hour_key img = key <;>
      simp [add_to_buckets, find_bucket, h]
  | cons hd tl ih =>
    obtain ⟨hk, hb⟩ := hd
    by_cases h1 : hour_key img = hk
    · by_cases h2 : hk = key
      · have h3 : hour_key img = key := h1.trans h2
        simp [add_to_buckets, find_bucket, h1, h2, h3]
      · have h3 : ¬ hour_key img = key := fun hc => h2 (h1.symm.trans hc)
        simp [add_to_buckets, find_bucket, h1, h2, h3]
    · by_cases h2 : hk = key
      · have h3 : ¬ hour_key img = key := fun hc => h1 (hc.trans h2.symm)
        simp [add_to_buckets, find_bucket, h1, h2, h3]
      · simp [add_to_buckets, find_bucket, h1, h2, ih]

theorem find_bucket_foldl (key : ℕ) (images : List Image)
    (acc : List (ℕ × List Image)) :
    find_bucket key (images.foldl add_to_buckets acc)
      = find_bucket key acc
          ++ images.filter (fun f => decide (hour_key f = key)) := by
  induction images generalizing acc with
  | nil => simp
  | cons img rest ih =>
    rw [List.foldl_cons, ih, find_bucket_add]
    by_cases h : hour_key img = key <;>
      simp [h, List.filter_cons]

theorem find_bucket_build (key : ℕ) (images : List Image) :
    find_bucket key (build_hourly_buckets images)
      = images.filter (fun f => decide (hour_key f = key)) := by
  have h := find_bucket_foldl key images []
  simpa [build_hourly_buckets, find_bucket] using h

theorem map_fst_add (bs : List (ℕ × List Image)) (img : Image) :
    (add_to_buckets bs img).map Prod.fst
      = if hour_key img ∈ bs.map Prod.fst then bs.map Prod.fst
        else bs.map Prod.fst ++ [hour_key img] := by
  induction bs with
  | nil => simp [add_to_buckets]
  | cons hd tl ih =>
    obtain ⟨hk, hb⟩ := hd
    by_cases h1 : hour_key img = hk
    · simp [add_to_buckets, h1]
    · by_cases h2 : hour_key img ∈ tl.map Prod.fst <;>
        simp [add_to_buckets, h1, h2, ih]

theorem map_fst_foldl_nodup (images : List Image) (acc : List (ℕ × List Image))
    (hacc : (acc.map Prod.fst).Nodup) :
    ((images.foldl add_to_buckets acc).map Prod.fst).Nodup := by
  induction images generalizing acc with
  | nil => exact hacc
  | cons img rest ih =>
    rw [List.foldl_cons]
    apply ih
    rw [map_fst_add]
    by_cases h : hour_key img ∈ acc.map Prod.fst
    · simpa [h] using hacc
    · simp only [h, if_false]
      simp [List.nodup_append, hacc, h]

theorem mem_map_fst_foldl (a : ℕ) (images : List Image)
    (acc : List (ℕ × List Image)) :
    a ∈ (images.foldl add_to_buckets acc).map Prod.fst
      ↔ a ∈ acc.map Prod.fst ∨ a ∈ images.map hour_key := by
  induction images generalizing acc with
  | nil => simp
  | cons img rest ih =>
    rw [List.foldl_cons, ih, map_fst_add]
    by_cases h : hour_key img ∈ acc.map Prod.fst
    · simp only [h, if_true, List.map_cons, List.mem_cons]
      constructor
      · rintro (h1 | h1)
        · exact Or.inl h1
        · exact Or.inr (Or.inr h1)
      · rintro (h1 | h1 | h1)
        · exact Or.inl h1
        · exact Or.inl (h1 ▸ h)
        · exact Or.inr h1
    · simp only [h, if_false, List.mem_append, List.mem_singleton,
        List.map_cons, List.mem_cons]
      tauto

/-- The sorted key list of the source's dict equals the sorted deduplicated
key list of the claim-side grouping. -/
theorem sorted_keys_eq (images : List Image) :
    ((build_hourly_buckets images).map Prod.fst).mergeSort
        (fun a b => decide (a ≤ b))
      = ((images.map hour_key).dedup).mergeSort (fun a b => decide (a ≤ b)) := by
  set A : List ℕ := (build_hourly_buckets images).map Prod.fst with hA
  set B : List ℕ := (images.map hour_key).dedup with hB
  have hAnodup : A.Nodup := map_fst_foldl_nodup images [] (by simp)
  have hBnodup : B.Nodup := List.nodup_dedup _
  have hmem : ∀ a : ℕ, a ∈ A ↔ a ∈ B := by
    intro a
    rw [hA, hB, List.mem_dedup]
    have h := mem_map_fst_foldl a images []
    simpa [build_hourly_buckets] using h
  have hAB : A.Perm B := (List.perm_ext_iff_of_nodup hAnodup hBnodup).mpr hmem
  have hperm : (A.mergeSort (fun a b => decide (a ≤ b))).Perm
      (B.mergeSort (fun a b => decide (a ≤ b))) :=
    ((List.mergeSort_perm A _).trans hAB).trans (List.mergeSort_perm B _).symm
  have htrans : ∀ a b c : ℕ, decide (a ≤ b) = true → decide (b ≤ c) = true →
      decide (a ≤ c) = true := by
    intro a b c
    simp only [decide_eq_true_eq]
    omega
  have htotal : ∀ a b : ℕ, (decide (a ≤ b) || decide (b ≤ a)) = true := by
    intro a b
    simp only [Bool.or_eq_true, decide_eq_true_eq]
    omega
  have hsortA := List.sorted_mergeSort htrans htotal A
  have hsortB := List.sorted_mergeSort htrans htotal B
  refine List.eq_of_perm_of_sorted (r := fun a b : ℕ => a ≤ b) hperm ?_ ?_
  · exact List.Pairwise.imp (fun h => of_decide_eq_true h) hsortA
  · exact List.Pairwise.imp (fun h => of_decide_eq_true h) hsortB

/-- Definitionally, `claim_bucket_float` is the source's per-bucket loop. -/
theorem claim_bucket_float_eq_select (bucket : List Image) (fph : ℕ) :
    claim_bucket_float bucket fph = select_from_bucket bucket fph := rfl

theorem flatMap_congr_fun {α β : Type} (l : List α) {f g : α → List β}
    (h : ∀ a, f a = g a) : l.flatMap f = l.flatMap g := by
  induction l with
  | nil => rfl
  | cons x xs ih => simp [List.flatMap_cons, h x, ih]

/-- The source selector equals the claim-side (binary64-amended) selector on
every input. -/
theorem select_eq_claim_float (frames : List Image) (fph : ℕ) :
    select_images_for_multiday frames fph = claim_select_float frames fph := by
  by_cases hempty : frames = []
  · subst hempty
    simp [select_images_for_multiday, claim_select_float]
  · unfold select_images_for_multiday claim_select_float
    rw [if_neg (by simpa [List.isEmpty_iff] using hempty)]
    show (((build_hourly_buckets frames).map Prod.fst).mergeSort
        (fun a b => decide (a ≤ b))).flatMap
          (fun k => select_from_bucket (find_bucket k (build_hourly_buckets frames)) fph)
      = _
    rw [sorted_keys_eq]
    apply flatMap_congr_fun
    intro key
    rw [find_bucket_build, claim_bucket_float_eq_select]

/-! ### Concrete binary64 evaluations for the C2 scenario and counterexample -/

theorem rnd_eq_floor_of_fract_lt {x : ℚ} (h : x - ⌊x⌋ < 1/2) : rnd x = ⌊x⌋ := by
  simp only [rnd]
  rw [if_pos h]

/-- The rational 5/2 is exactly representable in binary64. -/
theorem fl_five_halves : fl (5/2 : ℚ) = 5/2 := by
  rw [fl_eq_of_bounds 1 (by norm_num) (by norm_num) (by norm_num)]
  have harg : (5/2 : ℚ) / 2 ^ ((1 : ℤ) - 52) = ((5629499534213120 : ℤ) : ℚ) := by
    norm_num [zpow_sub₀]
  rw [harg, rnd_intCast]
  norm_num [zpow_sub₀]

theorem py_idx_5_2_1 : py_idx 5 2 1 = 2 := by
  unfold py_idx
  have hc : ((5 : ℕ) : ℚ) / ((2 : ℕ) : ℚ) = 5/2 := by norm_num
  rw [hc, fl_five_halves]
  have h1 : ((1 : ℕ) : ℚ) * (5/2 : ℚ) = 5/2 := by norm_num
  rw [h1, fl_five_halves]
  have hf : ⌊(5/2 : ℚ)⌋ = 2 := by
    rw [Int.floor_eq_iff]
    norm_num
  rw [hf]
  rfl

/-- The binary64 value of `30 / 22`: the rational `15/11` rounds down to
`6141272219141585 · 2⁻⁵²` (the fractional part of `15 · 2⁵² / 11` is `5/11`,
below one half). -/
theorem fl_30_22 : fl (15/11 : ℚ) = 6141272219141585 / 2 ^ 52 := by
  rw [fl_eq_of_bounds 0 (by norm_num) (by norm_num) (by norm_num)]
  have harg : (15/11 : ℚ) / 2 ^ ((0 : ℤ) - 52) = 67553994410557440 / 11 := by
    norm_num [zpow_sub₀]
  rw [harg]
  have hfloor : ⌊(67553994410557440 / 11 : ℚ)⌋ = 6141272219141585 := by
    rw [Int.floor_eq_iff]
    norm_num
  rw [rnd_eq_floor_of_fract_lt (by rw [hfloor]; norm_num), hfloor]
  norm_num [zpow_sub₀]

/-- The binary64 product `11 * fl(30/22)`: the exact product
`67553994410557435 · 2⁻⁵²` (just below 15) rounds down to
`8444249301319679 · 2⁻⁴⁹`, still just below 15. -/
theorem fl_11_step : fl (67553994410557435 / 2 ^ 52 : ℚ)
    = 8444249301319679 / 2 ^ 49 := by
  rw [fl_eq_of_bounds 3 (by norm_num) (by norm_num) (by norm_num)]
  have harg : (67553994410557435 / 2 ^ 52 : ℚ) / 2 ^ ((3 : ℤ) - 52)
      = 67553994410557435 / 8 := by
    norm_num [zpow_sub₀]
  rw [harg]
  have hfloor : ⌊(67553994410557435 / 8 : ℚ)⌋ = 8444249301319679 := by
    rw [Int.floor_eq_iff]
    norm_num
  rw [rnd_eq_floor_of_fract_lt (by rw [hfloor]; norm_num), hfloor]
  norm_num [zpow_sub₀]

/-- In a bucket of 30 frames with `framesPerHour = 22`, the index the code
computes for `i = 11` is `int(11 * (30/22)) = 14` in binary64 — although the
exact value of `11 * 30/22` is the integer 15. -/
theorem py_idx_30_22_11 : py_idx 30 22 11 = 14 := by
  unfold py_idx
  have hc : ((30 : ℕ) : ℚ) / ((22 : ℕ) : ℚ) = 15/11 := by norm_num
  rw [hc, fl_30_22]
  have h2 : ((11 : ℕ) : ℚ) * ((6141272219141585 : ℚ) / 2 ^ 52)
      = 67553994410557435 / 2 ^ 52 := by
    norm_num
  rw [h2, fl_11_step]
  have hf : ⌊(8444249301319679 / 2 ^ 49 : ℚ)⌋ = 14 := by
    rw [Int.floor_eq_iff]
    norm_num
  rw [hf]
  rfl

/-- When every frame falls in one hour bucket, the selector reduces to the
per-bucket loop. -/
theorem select_single_bucket {frames : List Image} {key : ℕ} (fph : ℕ)
    (hne : frames ≠ []) (hb : build_hourly_buckets frames = [(key, frames)]) :
    select_images_for_multiday frames fph = select_from_bucket frames fph := by
  unfold select_images_for_multiday
  rw [if_neg (by simpa [List.isEmpty_iff] using hne)]
  show (((build_hourly_buckets frames).map Prod.fst).mergeSort
      (fun a b => decide (a ≤ b))).flatMap
        (fun k => select_from_bucket (find_bucket k (build_hourly_buckets frames)) fph)
    = _
  rw [hb]
  simp only [List.map_cons, List.map_nil, List.mergeSort_singleton,
    List.flatMap_cons, List.flatMap_nil, List.append_nil]
  simp [find_bucket]

theorem claim_bucket_exact_floor_of_lt {bucket : List Image} {k : ℕ}
    (h : k < bucket.length) :
    claim_bucket_exact_floor bucket k
      = (List.range k).map (fun i => bucket.getD (i * bucket.length / k) default) := by
  simp only [claim_bucket_exact_floor]
  rw [min_eq_left h.le, if_neg (Nat.ne_of_lt h)]

theorem select30_at_11 :
    (select_images_for_multiday cex_frames30 22)[11]? = some (cex_frame 14) := by
  rw [select_single_bucket 22 (by decide)
      (by decide : build_hourly_buckets cex_frames30 = [(2024010112, cex_frames30)]),
    select_from_bucket_of_lt (by decide : 22 < cex_frames30.length)]
  rw [List.getElem?_map, List.getElem?_range (by decide : 11 < 22), Option.map_some']
  rw [show cex_frames30.length = 30 from by decide]
  rw [py_idx_30_22_11]
  decide

theorem claim30_at_11 :
    (claim_select_exact_floor cex_frames30 22)[11]? = some (cex_frame 15) := by
  unfold claim_select_exact_floor
  rw [show (cex_frames30.map hour_key).dedup = [2024010112] from by decide,
    List.mergeSort_singleton, List.flatMap_cons, List.flatMap_nil, List.append_nil,
    show cex_frames30.filter (fun f => decide (hour_key f = 2024010112)) = cex_frames30
      from by decide,
    claim_bucket_exact_floor_of_lt (by decide : 22 < cex_frames30.length)]
  rw [List.getElem?_map, List.getElem?_range (by decide : 11 < 22), Option.map_some']
  decide

/-- Counterexample to C2 as stated: on a single-hour bucket of 30 frames with
`framesPerHour = 22` the selector does *not* take the frames at the exact
floor indices `floor(i * (m/k))`: at `i = 11` the exact index is 15, but the
binary64 arithmetic of the code yields 14, so the selected lists differ. -/
theorem selector_float_deviates_from_exact_floor :
    select_images_for_multiday cex_frames30 22
      ≠ claim_select_exact_floor cex_frames30 22 := by
  intro heq
  have hL := select30_at_11
  rw [heq, claim30_at_11] at hL
  exact absurd hL (by decide)

/-- C2 as amended: the selector groups frames into buckets by the
`YYYYMMDDHH` hour key, iterates the buckets in ascending key order
(chronological, by `hourKey_mono`), per bucket takes all frames when
`k = min(framesPerHour, m) = m` and otherwise the frames at the indices
`int(i * (m/k))` computed in binary64 arithmetic (which can differ from the
exact floor, as `selector_float_deviates_from_exact_floor` shows); the
5-frame scenario bucket with `framesPerHour = 2` still yields exactly the
frames at indices 0 and 2, and empty input yields empty output. -/
theorem selector_grouping_and_float_indices :
    (∀ (frames : List Image) (fph : ℕ), 1 ≤ fph →
      select_images_for_multiday frames fph = claim_select_float frames fph) ∧
    select_images_for_multiday scenario_frames5 2 = [cex_frame 0, cex_frame 2] ∧
    (∀ fph : ℕ, select_images_for_multiday [] fph = []) := by
  refine ⟨fun frames fph _ => select_eq_claim_float frames fph, ?_, fun fph => rfl⟩
  rw [select_single_bucket 2 (by decide)
      (by decide : build_hourly_buckets scenario_frames5
        = [(2024010112, scenario_frames5)]),
    select_from_bucket_of_lt (by decide : 2 < scenario_frames5.length),
    show List.range 2 = [0, 1] from by decide]
  simp only [List.map_cons, List.map_nil]
  rw [show scenario_frames5.length = 5 from by decide]
  rw [py_idx_zero, py_idx_5_2_1]
  decide

/-- Witness for C2 (amended): the equivalence instantiated at the scenario
bucket with `framesPerHour = 2`. -/
theorem selector_grouping_and_float_indices_witness :
    1 ≤ 2 ∧
      select_images_for_multiday scenario_frames5 2
        = claim_select_float scenario_frames5 2 := by
  exact ⟨by decide, selector_grouping_and_float_indices.1 scenario_frames5 2 (by decide)⟩

end UnifiTimelapse
